import Mathlib

/-
Verification of the AI-Study-Buddy backend (src/main.py) against its
natural-language specification.

The development shallowly embeds the handler bodies of main.py:

* Python strings are Lean `String`s (lists of characters); the Python
  string primitives used by the source (`strip`, `replace`, `startswith`,
  `endswith`, slicing) are modelled by executable list functions below.
* The process-wide dict `lecture_materials` is a `Store`
  (an association list threaded through each operation).
* The two external collaborators are oracles passed to each operation:
  PDF text extraction is an `Except String (List String)` (either the
  per-page texts or the message of a raised exception), and the Gemini
  client is a function `GenModel` from the prompt string to either
  generated text or the message of a raised exception.
* `raise HTTPException(status, detail)` becomes the `Resp.err status detail`
  branch of the returned value; JSONResponse payloads become structures.
-/

/-- Characters removed by Python's default str.strip: ASCII whitespace
(space, tab, newline, carriage return, vertical tab, form feed). -/
def isPyWs (c : Char) : Bool :=
  c == ' ' || c == '\t' || c == '\n' || c == '\r' || c == Char.ofNat 11 || c == Char.ofNat 12

/-- Leading-whitespace removal, the first half of Python str.strip. -/
def stripFront (l : List Char) : List Char := l.dropWhile isPyWs

/-- Trailing-whitespace removal, the second half of Python str.strip. -/
def stripBack (l : List Char) : List Char := (l.reverse.dropWhile isPyWs).reverse

/-- Python str.strip on character lists. -/
def stripChars (l : List Char) : List Char := stripBack (stripFront l)

/-- Python str.strip(). -/
def pyStrip (s : String) : String := String.mk (stripChars s.data)

/-- Fuel-driven core of Python str.replace: replaces non-overlapping
occurrences of pat left to right. One unit of fuel is spent per character
position, so fuel equal to the input length is always sufficient for a
non-empty pattern. -/
def replaceFuel (pat rep : List Char) : Nat → List Char → List Char
  | 0, l => l
  | _ + 1, [] => []
  | fuel + 1, c :: cs =>
    if pat.isPrefixOf (c :: cs) then rep ++ replaceFuel pat rep fuel ((c :: cs).drop pat.length)
    else c :: replaceFuel pat rep fuel cs

/-- Python str.replace on character lists (for the non-empty patterns used
by the source). -/
def replaceAll (pat rep l : List Char) : List Char := replaceFuel pat rep l.length l

/-- Python s.replace(pat, rep). -/
def pyReplace (s pat rep : String) : String := String.mk (replaceAll pat.data rep.data s.data)

/-- Python s.startswith(pre). -/
def pyStartswith (s pre : String) : Bool := pre.data.isPrefixOf s.data

/-- Python s.endswith(suf). -/
def pyEndswith (s suf : String) : Bool := suf.data.isSuffixOf s.data

/-- Python slicing s[:n] (by characters, as in Python 3). -/
def pyTake (s : String) (n : Nat) : String := String.mk (s.data.take n)

/-- Whether pat occurs as a contiguous substring of the list. -/
def hasSubstr (pat : List Char) : List Char → Bool
  | [] => pat.isEmpty
  | c :: cs => pat.isPrefixOf (c :: cs) || hasSubstr pat cs

/-- Mirrors the extraction loop of upload_pdf (main.py lines 67-69):
text_content starts empty and each page's extracted text followed by a
newline is appended. -/
def pagesText (pages : List String) : String :=
  pages.foldl (fun acc p => acc ++ p ++ "\n") ""

mutual
/-- JSON values, the possible results of json.loads in generate_quiz. -/
inductive Json where
  | jnull
  | jbool (b : Bool)
  | jint (n : Int)
  | jstr (s : String)
  | jarr (items : JsonList)
  | jobj (members : JsonPairs)
deriving DecidableEq

/-- Elements of a JSON array, kept as a dedicated type so that decidable
equality can be derived. -/
inductive JsonList where
  | nil
  | cons (head : Json) (tail : JsonList)
deriving DecidableEq

/-- Members of a JSON object. -/
inductive JsonPairs where
  | nil
  | cons (key : String) (value : Json) (tail : JsonPairs)
deriving DecidableEq
end

/-- The character opening a JSON object (written by code point to keep the
source free of literal braces). -/
def jsonLBrace : Char := Char.ofNat 123

/-- The character closing a JSON object. -/
def jsonRBrace : Char := Char.ofNat 125

/-- The backtick character of markdown code fences. -/
def btickChar : Char := Char.ofNat 96

/-- JSON insignificant whitespace. -/
def isJsonWs (c : Char) : Bool :=
  c == ' ' || c == '\t' || c == '\n' || c == '\r'

/-- Skips JSON insignificant whitespace. -/
def skipJsonWs : List Char → List Char
  | [] => []
  | c :: cs => if isJsonWs c then skipJsonWs cs else c :: cs

/-- Resolution of a JSON string escape character. -/
def jsonEscChar (c : Char) : Option Char :=
  if c = '"' then some '"'
  else if c = '\\' then some '\\'
  else if c = '/' then some '/'
  else if c = 'n' then some '\n'
  else if c = 't' then some '\t'
  else if c = 'r' then some '\r'
  else if c = 'b' then some (Char.ofNat 8)
  else if c = 'f' then some (Char.ofNat 12)
  else none

/-- Parses the body of a JSON string after the opening quote, returning the
decoded characters and the remaining input. -/
def parseStrChars : Nat → List Char → Option (List Char × List Char)
  | 0, _ => none
  | _ + 1, [] => none
  | fuel + 1, c :: cs =>
    if c = '"' then some ([], cs)
    else if c = '\\' then
      match cs with
      | [] => none
      | e :: cs' =>
        match jsonEscChar e with
        | none => none
        | some ch =>
          match parseStrChars fuel cs' with
          | none => none
          | some (body, rest) => some (ch :: body, rest)
    else
      match parseStrChars fuel cs with
      | none => none
      | some (body, rest) => some (c :: body, rest)

/-- Digit run to number, most significant first. -/
def digitsToNat (acc : Nat) : List Char → Nat
  | [] => acc
  | c :: cs => digitsToNat (acc * 10 + (c.toNat - 48)) cs

/-- Parses a JSON integer literal (optional minus sign and digits);
fractional and exponent forms are rejected, see parseJson. -/
def parseIntChars (l : List Char) : Option (Int × List Char) :=
  match l with
  | '-' :: l₁ =>
    match parseIntChars l₁ with
    | none => none
    | some (n, rest) => some (-n, rest)
  | _ =>
    let ds := l.takeWhile Char.isDigit
    let rest := l.dropWhile Char.isDigit
    if ds = [] then none
    else
      match rest with
      | c :: _ => if c = '.' || c = 'e' || c = 'E' then none else some ((digitsToNat 0 ds : Nat), rest)
      | [] => some ((digitsToNat 0 ds : Nat), rest)

mutual
/-- Parses one JSON value, fuel decreasing with nesting depth. -/
def parseVal : Nat → List Char → Option (Json × List Char)
  | 0, _ => none
  | fuel + 1, cs =>
    match skipJsonWs cs with
    | 'n' :: 'u' :: 'l' :: 'l' :: rest => some (.jnull, rest)
    | 't' :: 'r' :: 'u' :: 'e' :: rest => some (.jbool true, rest)
    | 'f' :: 'a' :: 'l' :: 's' :: 'e' :: rest => some (.jbool false, rest)
    | '"' :: rest =>
      match parseStrChars (rest.length + 1) rest with
      | none => none
      | some (body, rest') => some (.jstr (String.mk body), rest')
    | '[' :: rest =>
      match skipJsonWs rest with
      | ']' :: rest' => some (.jarr .nil, rest')
      | other =>
        match parseArrItems fuel other with
        | none => none
        | some (items, rest') => some (.jarr items, rest')
    | c :: rest =>
      if c = jsonLBrace then
        match skipJsonWs rest with
        | d :: rest' =>
          if d = jsonRBrace then some (.jobj .nil, rest')
          else
            match parseObjItems fuel (d :: rest') with
            | none => none
            | some (ms, rest'') => some (.jobj ms, rest'')
        | [] => none
      else
        match parseIntChars (c :: rest) with
        | none => none
        | some (n, rest') => some (.jint n, rest')
    | [] => none

/-- Parses the items of a non-empty JSON array up to the closing bracket. -/
def parseArrItems : Nat → List Char → Option (JsonList × List Char)
  | 0, _ => none
  | fuel + 1, cs =>
    match parseVal fuel cs with
    | none => none
    | some (v, rest) =>
      match skipJsonWs rest with
      | ',' :: rest' =>
        match parseArrItems fuel rest' with
        | none => none
        | some (items, rest'') => some (.cons v items, rest'')
      | ']' :: rest' => some (.cons v .nil, rest')
      | _ => none

/-- Parses the members of a non-empty JSON object up to the closing brace. -/
def parseObjItems : Nat → List Char → Option (JsonPairs × List Char)
  | 0, _ => none
  | fuel + 1, cs =>
    match skipJsonWs cs with
    | '"' :: rest =>
      match parseStrChars (rest.length + 1) rest with
      | none => none
      | some (key, rest') =>
        match skipJsonWs rest' with
        | ':' :: rest'' =>
          match parseVal fuel rest'' with
          | none => none
          | some (v, rest₃) =>
            match skipJsonWs rest₃ with
            | ',' :: rest₄ =>
              match parseObjItems fuel rest₄ with
              | none => none
              | some (ms, rest₅) => some (.cons (String.mk key) v ms, rest₅)
            | c :: rest₄ =>
              if c = jsonRBrace then some (.cons (String.mk key) v .nil, rest₄) else none
            | [] => none
        | _ => none
    | _ => none
end

/-- Modelled from the spec: strict JSON parsing, the behaviour of Python's
json.loads called by generate_quiz (library code, not part of src/).
The whole input, up to surrounding whitespace, must be one JSON value.
Model restrictions (exercised by no claim): numbers are integers only
(fractions, exponents, NaN and Infinity are rejected) and string escapes
are limited to the single-character ones. -/
def parseJson (s : String) : Option Json :=
  match parseVal (s.data.length + 1) s.data with
  | none => none
  | some (v, rest) => if skipJsonWs rest = [] then some v else none

/-- One record of the lecture_materials dict (main.py lines 78-83). -/
structure Material where
  filename : String
  content : String
  notes : Option String
  quiz : Option Json
deriving DecidableEq

/-- The lecture_materials dict, as an association list in insertion
order. -/
abbrev Store := List (String × Material)

/-- Dict membership and lookup. -/
def storeGet (store : Store) (k : String) : Option Material :=
  match store with
  | [] => none
  | (k', m) :: rest => if k' = k then some m else storeGet rest k

/-- Dict assignment d[k] = m: replaces the record in place if the key is
present, appends otherwise (Python dicts preserve insertion order and hold
each key at most once). -/
def storePut (store : Store) (k : String) (m : Material) : Store :=
  match store with
  | [] => [(k, m)]
  | (k', m') :: rest => if k' = k then (k, m) :: rest else (k', m') :: storePut rest k m

/-- Field assignment lecture_materials[k]["notes"] = t. -/
def storeSetNotes (store : Store) (k : String) (t : String) : Store :=
  match store with
  | [] => []
  | (k', m') :: rest =>
    if k' = k then (k', { m' with notes := some t }) :: rest
    else (k', m') :: storeSetNotes rest k t

/-- Field assignment lecture_materials[k]["quiz"] = q. -/
def storeSetQuiz (store : Store) (k : String) (q : Json) : Store :=
  match store with
  | [] => []
  | (k', m') :: rest =>
    if k' = k then (k', { m' with quiz := some q }) :: rest
    else (k', m') :: storeSetQuiz rest k q

/-- Outcome of one call of the Gemini client on a prompt: either the
generated text or the message of a raised exception (this also covers an
exception raised while reading response.text). -/
inductive ModelResult where
  | text (s : String)
  | raises (msg : String)
deriving DecidableEq

/-- The Gemini client as an oracle from the prompt string to its outcome. -/
abbrev GenModel := String → ModelResult

/-- Result of a handler: a JSON payload or a raised HTTPException. -/
inductive Resp (α : Type) where
  | ok (val : α)
  | err (status : Nat) (detail : String)
deriving DecidableEq

/-- Request body of POST /api/chat. -/
structure ChatRequest where
  message : String
  material_id : Option String
deriving DecidableEq

/-- Request body of POST /api/generate-quiz. -/
structure QuizRequest where
  material_id : String
  num_questions : Int
deriving DecidableEq

/-- Payload of a successful upload. -/
structure UploadResult where
  status : String
  message : String
  material_id : String
  filename : String
deriving DecidableEq

/-- Payload of a successful generate-notes call. -/
structure NotesResult where
  status : String
  notes : String
deriving DecidableEq

/-- Payload of a successful generate-quiz call. -/
structure QuizResult where
  status : String
  quiz : Json
deriving DecidableEq

/-- Payload of a successful chat call; response is the model's text. -/
structure ChatResult where
  status : String
  response : String
deriving DecidableEq

/-- Payload of GET /api/material/material_id. -/
structure MaterialView where
  material_id : String
  filename : String
  content_preview : String
  notes : Option String
  quiz : Option Json
deriving DecidableEq

/-- One entry of the GET /api/materials listing. -/
structure MaterialSummary where
  material_id : String
  filename : String
  has_notes : Bool
  has_quiz : Bool
deriving DecidableEq

/-- The notes prompt of main.py lines 108-118, with the Python
triple-quoted string's indentation preserved. -/
def notesPrompt (content : String) : String :=
  "Based on the following lecture material, create comprehensive study notes. \n        Include:\n        - Key concepts and definitions\n        - Main topics covered\n        - Important points to remember\n        - Summary of each section\n        \n        Lecture Material:\n        " ++ pyTake content 4000 ++ "\n        \n        Please format the notes in a clear, structured markdown format."

/-- The quiz prompt of main.py lines 147-168 (literal braces written by
escape, as required of this file). -/
def quizPrompt (numQuestions : Int) (content : String) : String :=
  "Based on the following lecture material, create a quiz with " ++ toString numQuestions ++ " multiple-choice questions.\n\n        For each question, provide:\n        1. The question text\n        2. Four answer options (A, B, C, D)\n        3. The correct answer\n        4. A brief explanation\n        \n        Format the output as a JSON array with this structure:\n        [\n            \x7b\n                \"question\": \"Question text here?\",\n                \"options\": [\"A) Option 1\", \"B) Option 2\", \"C) Option 3\", \"D) Option 4\"],\n                \"correct_answer\": \"A\",\n                \"explanation\": \"Explanation here\"\n            \x7d\n        ]\n        \n        Lecture Material:\n        " ++ pyTake content 4000 ++ "\n        \n        Return only valid JSON without any markdown formatting or code blocks."

/-- The chat context preamble built when a stored material is used
(main.py lines 207-211). -/
def chatMaterialContext (content : String) : String :=
  "You are an AI tutor helping a student understand the following lecture material:\n\n" ++ pyTake content 3000 ++ "\n\nBased on this lecture material, answer the student's question in a helpful, educational manner."

/-- The generic tutoring preamble (main.py line 213). -/
def chatGenericContext : String :=
  "You are an AI tutor. Help the student with their question in a clear and educational manner."

/-- The combined chat prompt (main.py lines 216-220). -/
def chatPrompt (context message : String) : String :=
  context ++ "\n\nStudent's question: " ++ message ++ "\n\nPlease provide a clear, helpful answer."

/-- Id derivation of main.py line 75: note that Python's replace removes
every occurrence of ".pdf", not only a trailing one. -/
def deriveId (filename : String) : String :=
  pyReplace (pyReplace filename ".pdf" "") " " "_"

/-- The str() rendering of a FastAPI (Starlette) HTTPException, as
interpolated by the blanket except handlers of main.py. -/
def httpExcMessage (status : Nat) (detail : String) : String :=
  toString status ++ ": " ++ detail

/-- POST /api/upload (main.py lines 55-93). The extraction oracle stands
for reading the stream and PyPDF2 page extraction; Except.error is an
exception raised there. The empty-text branch models a subtlety of the
source: the HTTPException(400) raised at line 72 sits inside the try
block, so the blanket except at line 92 catches it and re-raises it as a
500 whose detail interpolates str of the caught exception. -/
def upload_pdf (store : Store) (filename : String)
    (extraction : Except String (List String)) : Resp UploadResult × Store :=
  if pyEndswith filename ".pdf" = false then (.err 400 "Only PDF files are allowed", store)
  else
    match extraction with
    | .error msg => (.err 500 ("Error processing PDF: " ++ msg), store)
    | .ok pages =>
      let text_content := pagesText pages
      if pyStrip text_content = "" then
        (.err 500 ("Error processing PDF: " ++ httpExcMessage 400 "No text content found in PDF"), store)
      else
        let material_id := deriveId filename
        (.ok ⟨"success", "PDF uploaded successfully", material_id, filename⟩,
          storePut store material_id ⟨filename, text_content, none, none⟩)

/-- POST /api/generate-notes (main.py lines 95-132). -/
def generate_notes (store : Store) (configured : Bool) (gm : GenModel)
    (material_id : String) : Resp NotesResult × Store :=
  match storeGet store material_id with
  | none => (.err 404 "Material not found", store)
  | some mat =>
    if configured = false then (.err 500 "Gemini API not configured", store)
    else
      match gm (notesPrompt mat.content) with
      | .raises msg => (.err 500 ("Error generating notes: " ++ msg), store)
      | .text t => (.ok ⟨"success", t⟩, storeSetNotes store material_id t)

/-- The fence clean-up of main.py lines 171-177: strip, then if the text
starts with a json-labelled fence remove every occurrence of the
substrings "opening-json-fence" and bare fence and strip again, else if it
starts with a bare fence remove every occurrence of it and strip again. -/
def cleanQuizText (t : String) : String :=
  let quiz_text := pyStrip t
  if pyStartswith quiz_text "```json" then
    pyStrip (pyReplace (pyReplace quiz_text "```json" "") "```" "")
  else if pyStartswith quiz_text "```" then
    pyStrip (pyReplace quiz_text "```" "")
  else quiz_text

/-- The fallback value stored when JSON parsing fails (main.py line 183). -/
def rawTextWrap (s : String) : Json :=
  .jobj (.cons "raw_text" (.jstr s) .nil)

/-- POST /api/generate-quiz (main.py lines 134-194). The jl parameter is
the strict JSON parse json.loads (instantiate with parseJson). -/
def generate_quiz (jl : String → Option Json) (store : Store) (configured : Bool)
    (gm : GenModel) (req : QuizRequest) : Resp QuizResult × Store :=
  match storeGet store req.material_id with
  | none => (.err 404 "Material not found", store)
  | some mat =>
    if configured = false then (.err 500 "Gemini API not configured", store)
    else
      match gm (quizPrompt req.num_questions mat.content) with
      | .raises msg => (.err 500 ("Error generating quiz: " ++ msg), store)
      | .text t =>
        match jl (cleanQuizText t) with
        | some j => (.ok ⟨"success", j⟩, storeSetQuiz store req.material_id j)
        | none =>
          (.ok ⟨"success", rawTextWrap (cleanQuizText t)⟩,
            storeSetQuiz store req.material_id (rawTextWrap (cleanQuizText t)))

/-- The context selection of main.py lines 204-213, mirroring the Python
truthiness test "request.material_id and request.material_id in
lecture_materials": a None or empty id and an id absent from the store all
fall back to the generic preamble. -/
def chatContext (store : Store) (mid? : Option String) : String :=
  match mid? with
  | some mid =>
    if mid = "" then chatGenericContext
    else
      match storeGet store mid with
      | some mat => chatMaterialContext mat.content
      | none => chatGenericContext
  | none => chatGenericContext

/-- POST /api/chat (main.py lines 196-231). -/
def chat_with_tutor (store : Store) (configured : Bool) (gm : GenModel)
    (req : ChatRequest) : Resp ChatResult × Store :=
  if configured = false then (.err 500 "Gemini API not configured", store)
  else
    match gm (chatPrompt (chatContext store req.material_id) req.message) with
    | .raises msg => (.err 500 ("Error chatting with tutor: " ++ msg), store)
    | .text t => (.ok ⟨"success", t⟩, store)

/-- GET /api/materials (main.py lines 233-245). -/
def list_materials (store : Store) : List MaterialSummary :=
  store.map (fun kv => ⟨kv.1, kv.2.filename, kv.2.notes.isSome, kv.2.quiz.isSome⟩)

/-- GET /api/material/material_id (main.py lines 247-260). -/
def get_material (store : Store) (material_id : String) : Resp MaterialView :=
  match storeGet store material_id with
  | none => .err 404 "Material not found"
  | some mat => .ok ⟨material_id, mat.filename, pyTake mat.content 500 ++ "...", mat.notes, mat.quiz⟩

/-- One request against the service, with its external-collaborator
outcomes. -/
inductive Op where
  | upload (filename : String) (extraction : Except String (List String))
  | genNotes (material_id : String)
  | genQuiz (req : QuizRequest)
  | tutorChat (req : ChatRequest)
  | listAll
  | getOne (material_id : String)

/-- The store after handling one request. -/
def applyOp (configured : Bool) (gm : GenModel) (jl : String → Option Json)
    (store : Store) : Op → Store
  | .upload filename extraction => (upload_pdf store filename extraction).2
  | .genNotes mid => (generate_notes store configured gm mid).2
  | .genQuiz req => (generate_quiz jl store configured gm req).2
  | .tutorChat req => (chat_with_tutor store configured gm req).2
  | .listAll => store
  | .getOne _ => store

/-- Store invariant of claim C6: every record's content has non-whitespace
text. -/
def MaterialsInv (store : Store) : Prop :=
  ∀ kv ∈ store, pyStrip kv.2.content ≠ ""

instance materialsInvDecidable (store : Store) : Decidable (MaterialsInv store) :=
  inferInstanceAs (Decidable (∀ kv ∈ store, pyStrip kv.2.content ≠ ""))

/-- Modelled from the spec's words, for comparison with deriveId in claim
C2: remove the trailing ".pdf" (the last four characters of a filename
ending in ".pdf") and replace spaces with underscores. -/
def specDeriveId (filename : String) : String :=
  pyReplace (String.mk (filename.data.take (filename.data.length - 4))) " " "_"

/-- Modelled from the spec's words, for comparison with cleanQuizText in
claim C8: strip, then remove one leading and one trailing json-labelled
fence if present, else one leading and one trailing bare fence if present,
stripping the remainder. -/
def specStripFences (t : String) : String :=
  let q := pyStrip t
  if pyStartswith q "```json" && pyEndswith q "```" then
    pyStrip (String.mk ((q.data.drop 7).take (q.data.length - 10)))
  else if pyStartswith q "```" && pyEndswith q "```" then
    pyStrip (String.mk ((q.data.drop 3).take (q.data.length - 6)))
  else q

/-- Length can only shrink under dropWhile. -/
theorem dropWhile_length_le (p : Char → Bool) (l : List Char) :
    (l.dropWhile p).length ≤ l.length := by
  induction l with
  | nil => simp
  | cons c cs ih =>
    rw [List.dropWhile_cons]
    split
    · exact Nat.le_succ_of_le ih
    · exact Nat.le_refl _

/-- replaceFuel does nothing on the empty list. -/
theorem replaceFuel_nil (pat rep : List Char) (fuel : Nat) :
    replaceFuel pat rep fuel [] = [] := by
  cases fuel <;> rfl

/-- For a non-empty pattern any fuel at least the input length gives the
same result. -/
theorem replaceFuel_congr (pat rep : List Char) (hpat : pat ≠ []) :
    ∀ fuel₁ fuel₂ l, l.length ≤ fuel₁ → l.length ≤ fuel₂ →
      replaceFuel pat rep fuel₁ l = replaceFuel pat rep fuel₂ l := by
  intro fuel₁
  induction fuel₁ with
  | zero =>
    intro fuel₂ l h₁ _
    have hl : l = [] := List.eq_nil_of_length_eq_zero (Nat.le_zero.mp h₁)
    subst hl
    rw [replaceFuel_nil, replaceFuel_nil]
  | succ f ih =>
    intro fuel₂ l h₁ h₂
    cases l with
    | nil => rw [replaceFuel_nil, replaceFuel_nil]
    | cons c cs =>
      cases fuel₂ with
      | zero => simp at h₂
      | succ f₂ =>
        have hplen : 1 ≤ pat.length := List.length_pos.mpr hpat
        have hcs₁ : cs.length ≤ f := by simp at h₁; omega
        have hcs₂ : cs.length ≤ f₂ := by simp at h₂; omega
        have hdl : ((c :: cs).drop pat.length).length ≤ f := by
          rw [List.length_drop]; simp; omega
        have hdl₂ : ((c :: cs).drop pat.length).length ≤ f₂ := by
          rw [List.length_drop]; simp; omega
        simp only [replaceFuel]
        by_cases hp : pat.isPrefixOf (c :: cs) = true
        · rw [if_pos hp, if_pos hp, ih f₂ _ hdl hdl₂]
        · rw [if_neg hp, if_neg hp, ih f₂ cs hcs₁ hcs₂]

/-- replaceAll on the empty list. -/
theorem replaceAll_nil (pat rep : List Char) : replaceAll pat rep [] = [] := rfl

/-- One unfolding step of replaceAll. -/
theorem replaceAll_cons (pat rep : List Char) (hpat : pat ≠ []) (c : Char) (cs : List Char) :
    replaceAll pat rep (c :: cs) =
      if pat.isPrefixOf (c :: cs) then rep ++ replaceAll pat rep ((c :: cs).drop pat.length)
      else c :: replaceAll pat rep cs := by
  have hplen : 1 ≤ pat.length := List.length_pos.mpr hpat
  show replaceFuel pat rep (c :: cs).length (c :: cs) = _
  by_cases hp : pat.isPrefixOf (c :: cs) = true
  · simp only [List.length_cons, replaceFuel, hp, if_true]
    have hdl : ((c :: cs).drop pat.length).length ≤ cs.length := by
      rw [List.length_drop]; simp; omega
    rw [replaceFuel_congr pat rep hpat cs.length _ _ hdl (Nat.le_refl _)]
    rfl
  · simp only [List.length_cons, replaceFuel, hp, if_false]
    rfl

/-- replaceAll consumes an exact pattern occurrence at the front. -/
theorem replaceAll_eat (pat rep rest : List Char) (hpat : pat ≠ []) :
    replaceAll pat rep (pat ++ rest) = rep ++ replaceAll pat rep rest := by
  cases pat with
  | nil => exact absurd rfl hpat
  | cons p₀ pr =>
    have hp : (p₀ :: pr).isPrefixOf ((p₀ :: pr) ++ rest) = true :=
      List.isPrefixOf_iff_prefix.mpr (List.prefix_append _ _)
    rw [List.cons_append, replaceAll_cons _ _ hpat, ← List.cons_append, if_pos hp,
      List.drop_left]

/-- replaceAll passes over characters that cannot start the pattern. -/
theorem replaceAll_skip (p₀ : Char) (pr rep xs ys : List Char) (h : p₀ ∉ xs) :
    replaceAll (p₀ :: pr) rep (xs ++ ys) = xs ++ replaceAll (p₀ :: pr) rep ys := by
  induction xs with
  | nil => simp
  | cons c cs ih =>
    have hc : ¬ (p₀ = c) := fun he => h (he ▸ List.mem_cons_self c cs)
    rw [List.cons_append, replaceAll_cons _ _ (by simp)]
    have hpre : (p₀ :: pr).isPrefixOf (c :: (cs ++ ys)) = false := by
      simp [List.isPrefixOf, hc]
    rw [hpre]
    simp only [Bool.false_eq_true, if_false, List.cons_append]
    rw [ih (fun hm => h (List.mem_cons_of_mem _ hm))]

/-- A prefix occurrence makes hasSubstr true. -/
theorem hasSubstr_of_isPrefixOf (pat m : List Char) (hpat : pat ≠ [])
    (h : pat.isPrefixOf m = true) : hasSubstr pat m = true := by
  cases m with
  | nil =>
    cases pat with
    | nil => exact absurd rfl hpat
    | cons p pr => simp [List.isPrefixOf] at h
  | cons c cs => simp [hasSubstr, h]

/-- A prefix of a list is a prefix of any long enough take of it. -/
theorem prefix_take_of_prefix (pat l : List Char) (k : Nat) (hp : pat <+: l)
    (hk : pat.length ≤ k) : pat <+: l.take k := by
  rw [List.prefix_iff_eq_take] at hp ⊢
  rw [List.take_take, Nat.min_eq_left hk]
  exact hp

/-- For a pattern occurring only as the trailing suffix, replaceAll with an
empty replacement just removes that suffix. -/
theorem replaceAll_only_suffix (pat : List Char) (hpat : pat ≠ []) :
    ∀ l : List Char, pat.isSuffixOf l = true →
      hasSubstr pat (l.take (l.length - 1)) = false →
      replaceAll pat [] l = l.take (l.length - pat.length) := by
  intro l
  induction l with
  | nil =>
    intro hsuf _
    exact absurd (List.suffix_nil.mp (List.isSuffixOf_iff_suffix.mp hsuf)) hpat
  | cons c cs ih =>
    intro hsuf honly
    have hsuf' : pat <:+ c :: cs := List.isSuffixOf_iff_suffix.mp hsuf
    by_cases hp : pat.isPrefixOf (c :: cs) = true
    · have hpre : pat <+: c :: cs := List.isPrefixOf_iff_prefix.mp hp
      by_cases hlen : pat.length = cs.length + 1
      · rw [replaceAll_cons _ _ hpat, if_pos hp]
        have hdrop : (c :: cs).drop pat.length = [] := by
          rw [hlen, ← List.length_cons c cs, List.drop_length]
        rw [hdrop, replaceAll_nil]
        have htake : (c :: cs).length - pat.length = 0 := by simp [hlen]
        rw [htake, List.take_zero, List.nil_append]
      · have hle : pat.length ≤ cs.length := by
          have := hpre.length_le
          simp at this
          omega
        exfalso
        have h1 : pat <+: (c :: cs).take ((c :: cs).length - 1) := by
          have : (c :: cs).length - 1 = cs.length := by simp
          rw [this]
          exact prefix_take_of_prefix pat _ _ hpre hle
        have h2 := hasSubstr_of_isPrefixOf pat _ hpat (List.isPrefixOf_iff_prefix.mpr h1)
        rw [honly] at h2
        exact Bool.false_ne_true h2
    · rw [replaceAll_cons _ _ hpat, if_neg hp]
      have hsufcs : pat <:+ cs := by
        rcases List.suffix_cons_iff.mp hsuf' with he | hs
        · exact absurd (List.isPrefixOf_iff_prefix.mpr (he ▸ List.prefix_refl pat)) hp
        · exact hs
      have hple : pat.length ≤ cs.length := hsufcs.length_le
      cases cs with
      | nil =>
        exact absurd (List.suffix_nil.mp hsufcs) hpat
      | cons d ds =>
        have honly' : hasSubstr pat ((d :: ds).take ((d :: ds).length - 1)) = false := by
          have hsh : (c :: d :: ds).take ((c :: d :: ds).length - 1)
              = c :: (d :: ds).take ((d :: ds).length - 1) := by
            simp [List.take_succ_cons]
          rw [hsh] at honly
          simp only [hasSubstr, Bool.or_eq_false_iff] at honly
          exact honly.2
        have hres := ih (List.isSuffixOf_iff_suffix.mpr hsufcs) honly'
        rw [hres]
        have harith : (c :: d :: ds).length - pat.length
            = ((d :: ds).length - pat.length) + 1 := by
          simp at hple ⊢
          omega
        rw [harith, List.take_succ_cons]

/-- Strip fixes any list wrapped in non-whitespace end characters. -/
theorem stripChars_wrapped (c d : Char) (mid : List Char)
    (hc : isPyWs c = false) (hd : isPyWs d = false) :
    stripChars (c :: (mid ++ [d])) = c :: (mid ++ [d]) := by
  have hf : stripFront (c :: (mid ++ [d])) = c :: (mid ++ [d]) := by
    simp [stripFront, List.dropWhile_cons, hc]
  have hrev : (c :: (mid ++ [d])).reverse = d :: (mid.reverse ++ [c]) := by
    simp
  rw [stripChars, hf, stripBack, hrev, List.dropWhile_cons, hd]
  simp

/-- Strip of a trimmed non-empty list wrapped in single newlines recovers
the list. -/
theorem stripChars_newline_wrap (body : List Char) (hne : body ≠ [])
    (hFront : stripFront body = body) (hBack : stripBack body = body) :
    stripChars ('\n' :: (body ++ ['\n'])) = body := by
  have hnl : isPyWs '\n' = true := by decide
  cases body with
  | nil => exact absurd rfl hne
  | cons b bs =>
    have hb : isPyWs b = false := by
      by_cases hwb : isPyWs b = true
      · exfalso
        have h1 : stripFront (b :: bs) = stripFront bs := by
          rw [stripFront, stripFront, List.dropWhile_cons, hwb, if_pos rfl]
        rw [h1] at hFront
        have h2 := congrArg List.length hFront
        have h3 := dropWhile_length_le isPyWs bs
        simp only [stripFront] at h2
        simp at h2
        omega
      · simp at hwb
        exact hwb
    have hf : stripFront ('\n' :: ((b :: bs) ++ ['\n'])) = (b :: bs) ++ ['\n'] := by
      rw [stripFront, List.dropWhile_cons, hnl, if_pos rfl, List.cons_append,
        List.dropWhile_cons, hb]
      rw [if_neg Bool.false_ne_true]
    have hdw : List.dropWhile isPyWs (b :: bs).reverse = (b :: bs).reverse := by
      have h := congrArg List.reverse hBack
      simp only [stripBack, List.reverse_reverse] at h
      exact h
    rw [stripChars, hf, stripBack]
    rw [show ((b :: bs) ++ ['\n']).reverse = '\n' :: (b :: bs).reverse by simp]
    rw [List.dropWhile_cons, hnl, if_pos rfl, hdw, List.reverse_reverse]

/-- Lookup after dict assignment finds the new record. -/
theorem storeGet_storePut (store : Store) (k : String) (m : Material) :
    storeGet (storePut store k m) k = some m := by
  induction store with
  | nil => simp [storePut, storeGet]
  | cons kv rest ih =>
    obtain ⟨k', m'⟩ := kv
    by_cases hk : k' = k
    · rw [storePut, if_pos hk, storeGet, if_pos rfl]
    · rw [storePut, if_neg hk, storeGet, if_neg hk]
      exact ih

/-- Dict assignment preserves the content invariant when the new record
satisfies it. -/
theorem materialsInv_storePut (store : Store) (k : String) (m : Material)
    (h : MaterialsInv store) (hm : pyStrip m.content ≠ "") :
    MaterialsInv (storePut store k m) := by
  induction store with
  | nil =>
    intro kv hkv
    rw [storePut] at hkv
    rw [List.mem_singleton.mp hkv]
    exact hm
  | cons kv₀ rest ih =>
    obtain ⟨k', m'⟩ := kv₀
    intro kv hkv
    by_cases hk : k' = k
    · rw [storePut, if_pos hk] at hkv
      rcases List.mem_cons.mp hkv with heq | hin
      · rw [heq]; exact hm
      · exact h kv (List.mem_cons_of_mem _ hin)
    · rw [storePut, if_neg hk] at hkv
      rcases List.mem_cons.mp hkv with heq | hin
      · rw [heq]; exact h (k', m') (List.mem_cons_self _ _)
      · exact ih (fun kv₁ h₁ => h kv₁ (List.mem_cons_of_mem _ h₁)) kv hin

/-- Setting notes of a record changes no content. -/
theorem materialsInv_setNotes (store : Store) (k t : String)
    (h : MaterialsInv store) : MaterialsInv (storeSetNotes store k t) := by
  induction store with
  | nil => intro kv hkv; simp [storeSetNotes] at hkv
  | cons kv₀ rest ih =>
    obtain ⟨k', m'⟩ := kv₀
    intro kv hkv
    by_cases hk : k' = k
    · rw [storeSetNotes, if_pos hk] at hkv
      rcases List.mem_cons.mp hkv with heq | hin
      · rw [heq]
        exact h (k', m') (List.mem_cons_self _ _)
      · exact h kv (List.mem_cons_of_mem _ hin)
    · rw [storeSetNotes, if_neg hk] at hkv
      rcases List.mem_cons.mp hkv with heq | hin
      · rw [heq]; exact h (k', m') (List.mem_cons_self _ _)
      · exact ih (fun kv₁ h₁ => h kv₁ (List.mem_cons_of_mem _ h₁)) kv hin

/-- Setting the quiz of a record changes no content. -/
theorem materialsInv_setQuiz (store : Store) (k : String) (q : Json)
    (h : MaterialsInv store) : MaterialsInv (storeSetQuiz store k q) := by
  induction store with
  | nil => intro kv hkv; simp [storeSetQuiz] at hkv
  | cons kv₀ rest ih =>
    obtain ⟨k', m'⟩ := kv₀
    intro kv hkv
    by_cases hk : k' = k
    · rw [storeSetQuiz, if_pos hk] at hkv
      rcases List.mem_cons.mp hkv with heq | hin
      · rw [heq]
        exact h (k', m') (List.mem_cons_self _ _)
      · exact h kv (List.mem_cons_of_mem _ hin)
    · rw [storeSetQuiz, if_neg hk] at hkv
      rcases List.mem_cons.mp hkv with heq | hin
      · rw [heq]; exact h (k', m') (List.mem_cons_self _ _)
      · exact ih (fun kv₁ h₁ => h kv₁ (List.mem_cons_of_mem _ h₁)) kv hin

/-- The chat handler returns the store it was given, in every branch. -/
theorem chatStoreUnchanged (store : Store) (configured : Bool) (gm : GenModel)
    (req : ChatRequest) : (chat_with_tutor store configured gm req).2 = store := by
  rw [chat_with_tutor]
  by_cases hc : configured = false
  · rw [if_pos hc]
  · rw [if_neg hc]
    cases gm (chatPrompt (chatContext store req.material_id) req.message) <;> rfl

/-- A chat error always carries status 500. -/
theorem chatErr500 (store : Store) (configured : Bool) (gm : GenModel)
    (req : ChatRequest) (s : Nat) (d : String)
    (h : (chat_with_tutor store configured gm req).1 = Resp.err s d) : s = 500 := by
  rw [chat_with_tutor] at h
  by_cases hc : configured = false
  · rw [if_pos hc] at h
    exact (Resp.err.inj h).1.symm
  · rw [if_neg hc] at h
    rcases hgm : gm (chatPrompt (chatContext store req.material_id) req.message) with t | msg
    · rw [hgm] at h
      simp at h
    · rw [hgm] at h
      exact (Resp.err.inj h).1.symm

/-- Fence clean-up of a json-fenced response whose body is trimmed,
non-empty and backtick-free: exactly the body remains. -/
theorem cleanQuizText_fenced (body : List Char) (hne : body ≠ [])
    (hFront : stripFront body = body) (hBack : stripBack body = body)
    (hTick : btickChar ∉ body) :
    cleanQuizText (String.mk ("```json\n".data ++ body ++ "\n```".data)) = String.mk body := by
  have hpj : ("```json".data : List Char) ≠ [] := by decide
  have hmem1 : btickChar ∉ '\n' :: body := by
    intro hm
    rcases List.mem_cons.mp hm with he | hin
    · exact absurd he (by decide)
    · exact hTick hin
  have hshape : "```json\n".data ++ body ++ "\n```".data
      = btickChar :: (("``json\n".data ++ body ++ "\n``".data) ++ [btickChar]) := by
    have h1 : "```json\n".data = btickChar :: "``json\n".data := by decide
    have h2 : ("\n```".data : List Char) = "\n``".data ++ [btickChar] := by decide
    rw [h1, h2]
    simp
  have hstrip0 : stripChars ("```json\n".data ++ body ++ "\n```".data)
      = "```json\n".data ++ body ++ "\n```".data := by
    rw [hshape]
    exact stripChars_wrapped _ _ _ (by decide) (by decide)
  have hsplit : "```json\n".data ++ body ++ "\n```".data
      = "```json".data ++ (('\n' :: body) ++ "\n```".data) := by
    have h3 : "```json\n".data = "```json".data ++ ['\n'] := by decide
    rw [h3]
    simp
  have hpre : pyStartswith (String.mk ("```json\n".data ++ body ++ "\n```".data)) "```json" = true := by
    rw [pyStartswith]
    apply List.isPrefixOf_iff_prefix.mpr
    rw [show (String.mk ("```json\n".data ++ body ++ "\n```".data)).data
        = "```json\n".data ++ body ++ "\n```".data from rfl]
    rw [hsplit]
    exact List.prefix_append _ _
  have hrep1 : replaceAll "```json".data [] ("```json\n".data ++ body ++ "\n```".data)
      = ('\n' :: body) ++ "\n```".data := by
    rw [hsplit, replaceAll_eat _ _ _ hpj]
    have h4 : ("```json".data : List Char) = btickChar :: "``json".data := by decide
    rw [h4, replaceAll_skip _ _ _ _ _ hmem1]
    rw [show replaceAll (btickChar :: "``json".data) [] "\n```".data = "\n```".data by decide]
    simp
  have hrep2 : replaceAll "```".data [] (('\n' :: body) ++ "\n```".data)
      = '\n' :: (body ++ ['\n']) := by
    have h5 : ("\n```".data : List Char) = ['\n'] ++ "```".data := by decide
    rw [h5, ← List.append_assoc]
    have h6 : ("```".data : List Char) = btickChar :: "``".data := by decide
    rw [h6]
    have hmem2 : btickChar ∉ ('\n' :: body) ++ ['\n'] := by
      intro hm
      rcases List.mem_append.mp hm with hin | hin
      · exact hmem1 hin
      · exact absurd (List.mem_singleton.mp hin) (by decide)
    rw [replaceAll_skip _ _ _ _ _ hmem2]
    rw [show replaceAll (btickChar :: "``".data) [] (btickChar :: "``".data) = [] by decide]
    simp
  have hps : pyStrip (String.mk ("```json\n".data ++ body ++ "\n```".data))
      = String.mk ("```json\n".data ++ body ++ "\n```".data) := by
    rw [pyStrip]
    exact congrArg String.mk hstrip0
  have hpr1 : pyReplace (String.mk ("```json\n".data ++ body ++ "\n```".data)) "```json" ""
      = String.mk (('\n' :: body) ++ "\n```".data) := by
    rw [pyReplace]
    exact congrArg String.mk hrep1
  have hpr2 : pyReplace (String.mk (('\n' :: body) ++ "\n```".data)) "```" ""
      = String.mk ('\n' :: (body ++ ['\n'])) := by
    rw [pyReplace]
    exact congrArg String.mk hrep2
  have hps2 : pyStrip (String.mk ('\n' :: (body ++ ['\n']))) = String.mk body := by
    rw [pyStrip]
    exact congrArg String.mk (stripChars_newline_wrap body hne hFront hBack)
  rw [cleanQuizText]
  simp only [hps, hpre, hpr1, hpr2, hps2]
  simp

/-- For a filename whose only ".pdf" occurrence is its trailing suffix the
derived id agrees with the spec-described trailing removal. -/
theorem deriveId_trailing (filename : String)
    (hEnd : pyEndswith filename ".pdf" = true)
    (hOnly : hasSubstr ".pdf".data (filename.data.take (filename.data.length - 1)) = false) :
    deriveId filename = specDeriveId filename := by
  have hpat : (".pdf".data : List Char) ≠ [] := by decide
  have h1 : replaceAll ".pdf".data [] filename.data
      = filename.data.take (filename.data.length - ".pdf".data.length) :=
    replaceAll_only_suffix ".pdf".data hpat filename.data hEnd hOnly
  have h4 : (".pdf".data : List Char).length = 4 := by decide
  rw [h4] at h1
  have h2 : pyReplace filename ".pdf" ""
      = String.mk (filename.data.take (filename.data.length - 4)) := by
    rw [pyReplace]
    exact congrArg String.mk h1
  rw [deriveId, specDeriveId, h2]

/-- Witness fixture: a stored material. -/
def matW : Material := ⟨"m.pdf", "c", none, none⟩

/-- Witness fixture: a store holding one material under id m. -/
def storeW : Store := [("m", matW)]

/-- Witness fixture: a material with a short content and notes set. -/
def matShort : Material := ⟨"x.pdf", "hi", some "notes", none⟩

/-- Witness fixture: the store for the retrieval claim. -/
def storeShort : Store := [("x", matShort)]

/-- Witness fixture: a model client answering every prompt with the same
text. -/
def gmText (s : String) : GenModel := fun _ => ModelResult.text s

/-- Witness fixture: a model client raising on every prompt. -/
def gmBoom : GenModel := fun _ => ModelResult.raises "boom"

/-- Witness fixture: the fenced-response body of the quiz claim. -/
def c8Body : List Char := "[\"q\"]".data

/-- Claim C1: the spec says an upload whose extracted text is all
whitespace fails with InvalidInput (400) and creates no record, and the
source clearly intends this (line 72 raises HTTPException(400)); but that
raise sits inside the try block, so the blanket except at line 92 catches
it and re-raises it as a 500. Evaluating the embedded handler at such an
input shows status 500, not 400; the store is indeed left unchanged, so no
record is created. -/
theorem c1_upload_blank_pdf_500_no_record :
    upload_pdf [] "notes.pdf" (.ok ["   "]) =
      (.err 500 "Error processing PDF: 400: No text content found in PDF", ([] : Store)) := by
  decide

/-- Claim C2, counterexample: for the filename a.pdf.pdf, which ends in
.pdf, Python's replace removes both occurrences of .pdf, so the derived id
is a, not the a.pdf that removal of only the trailing occurrence (the
spec's wording, embodied by specDeriveId) would give. -/
theorem c2_counterexample :
    pyEndswith "a.pdf.pdf" ".pdf" = true ∧
    deriveId "a.pdf.pdf" = "a" ∧
    specDeriveId "a.pdf.pdf" = "a.pdf" ∧
    deriveId "a.pdf.pdf" ≠ specDeriveId "a.pdf.pdf" ∧
    (upload_pdf [] "a.pdf.pdf" (.ok ["x"])).1 =
      .ok ⟨"success", "PDF uploaded successfully", "a", "a.pdf.pdf"⟩ := by
  decide

/-- Claim C2 (amended): for every uploaded filename ending in ".pdf" in
which ".pdf" occurs only as the trailing suffix, the derived material id
equals that filename with the trailing ".pdf" removed and every space
replaced by an underscore; in particular uploading "lecture notes.pdf"
yields id lecture_notes. (The unamended claim fails when ".pdf" occurs
earlier in the name, since the code removes every occurrence.) -/
theorem c2_deriveId_trailing_only (filename : String)
    (hEnd : pyEndswith filename ".pdf" = true)
    (hOnly : hasSubstr ".pdf".data (filename.data.take (filename.data.length - 1)) = false) :
    deriveId filename = specDeriveId filename :=
  deriveId_trailing filename hEnd hOnly

/-- Witness for the amended claim C2 at the spec's own example. -/
theorem c2_witness :
    pyEndswith "lecture notes.pdf" ".pdf" = true ∧
    hasSubstr ".pdf".data
      ("lecture notes.pdf".data.take ("lecture notes.pdf".data.length - 1)) = false ∧
    deriveId "lecture notes.pdf" = specDeriveId "lecture notes.pdf" ∧
    specDeriveId "lecture notes.pdf" = "lecture_notes" ∧
    deriveId "lecture notes.pdf" = "lecture_notes" :=
  ⟨by decide, by decide,
    c2_deriveId_trailing_only "lecture notes.pdf" (by decide) (by decide),
    by decide, by decide⟩

/-- Claim C3: on a stored material with the client configured, when the
fence-cleaned model text fails strict JSON parsing, generate_quiz stores
and returns the raw_text wrapper of the cleaned string with success
status; in particular the response is Resp.ok, never an HTTP error. -/
theorem c3_quiz_parse_failure_soft (jl : String → Option Json) (store : Store)
    (gm : GenModel) (req : QuizRequest) (mat : Material) (t : String)
    (hmat : storeGet store req.material_id = some mat)
    (hgm : gm (quizPrompt req.num_questions mat.content) = ModelResult.text t)
    (hfail : jl (cleanQuizText t) = none) :
    generate_quiz jl store true gm req =
      (.ok ⟨"success", rawTextWrap (cleanQuizText t)⟩,
        storeSetQuiz store req.material_id (rawTextWrap (cleanQuizText t))) := by
  simp only [generate_quiz, hmat, hgm, hfail]
  simp

/-- Witness for claim C3 at the spec's non-JSON example response. -/
theorem c3_witness :
    storeGet storeW "m" = some matW ∧
    parseJson (cleanQuizText "I cannot do that") = none ∧
    cleanQuizText "I cannot do that" = "I cannot do that" ∧
    rawTextWrap "I cannot do that" = .jobj (.cons "raw_text" (.jstr "I cannot do that") .nil) ∧
    generate_quiz parseJson storeW true (gmText "I cannot do that") ⟨"m", 5⟩ =
      (.ok ⟨"success", rawTextWrap (cleanQuizText "I cannot do that")⟩,
        storeSetQuiz storeW "m" (rawTextWrap (cleanQuizText "I cannot do that"))) :=
  ⟨by decide, by decide, by decide, by decide,
    c3_quiz_parse_failure_soft parseJson storeW (gmText "I cannot do that") ⟨"m", 5⟩ matW
      "I cannot do that" (by decide) rfl (by decide)⟩

/-- Claim C4: a chat request whose material_id is absent from the store
behaves identically to the same request with no material_id (both build
the generic tutoring preamble), and such a request never fails with 404. -/
theorem c4_chat_unknown_id_generic (store : Store) (configured : Bool) (gm : GenModel)
    (msg mid : String) (habs : storeGet store mid = none) :
    chat_with_tutor store configured gm ⟨msg, some mid⟩ =
      chat_with_tutor store configured gm ⟨msg, none⟩ ∧
    ∀ s d, (chat_with_tutor store configured gm ⟨msg, some mid⟩).1 = Resp.err s d → s ≠ 404 := by
  have hctx : chatContext store (some mid) = chatGenericContext := by
    simp only [chatContext]
    by_cases hm : mid = ""
    · rw [if_pos hm]
    · rw [if_neg hm, habs]
  constructor
  · simp only [chat_with_tutor]
    rw [hctx]
    exact rfl
  · intro s d hsd
    have h500 := chatErr500 store configured gm ⟨msg, some mid⟩ s d hsd
    omega

/-- Witness for claim C4 with a configured client and a ghost id. -/
theorem c4_witness :
    storeGet storeW "ghost" = none ∧
    (chat_with_tutor storeW true (gmText "ok") ⟨"hi", some "ghost"⟩ =
        chat_with_tutor storeW true (gmText "ok") ⟨"hi", none⟩ ∧
      ∀ s d, (chat_with_tutor storeW true (gmText "ok") ⟨"hi", some "ghost"⟩).1 = Resp.err s d →
        s ≠ 404) :=
  ⟨by decide, c4_chat_unknown_id_generic storeW true (gmText "ok") "hi" "ghost" (by decide)⟩

/-- Claim C5: for a stored id, get_material returns the first 500
characters of the content followed by the literal "..." (when the content
is no longer than 500 characters the preview is the whole content plus
"..."), together with filename, notes and quiz; for an absent id it fails
with 404. -/
theorem c5_get_material_contract (store : Store) (material_id : String) :
    (∀ mat, storeGet store material_id = some mat →
      get_material store material_id =
        .ok ⟨material_id, mat.filename, pyTake mat.content 500 ++ "...", mat.notes, mat.quiz⟩ ∧
      (mat.content.data.length ≤ 500 →
        pyTake mat.content 500 ++ "..." = mat.content ++ "...")) ∧
    (storeGet store material_id = none →
      get_material store material_id = .err 404 "Material not found") := by
  constructor
  · intro mat hmat
    constructor
    · simp only [get_material, hmat]
    · intro hlen
      rw [pyTake, List.take_of_length_le hlen]
  · intro hnone
    simp only [get_material, hnone]

/-- Witness for claim C5 on a content shorter than 500 characters and on
an absent id. -/
theorem c5_witness :
    storeGet storeShort "x" = some matShort ∧
    get_material storeShort "x" =
      .ok ⟨"x", matShort.filename, pyTake matShort.content 500 ++ "...", matShort.notes,
        matShort.quiz⟩ ∧
    matShort.content.data.length ≤ 500 ∧
    pyTake matShort.content 500 ++ "..." = matShort.content ++ "..." ∧
    get_material storeShort "x" = .ok ⟨"x", "x.pdf", "hi...", some "notes", none⟩ ∧
    storeGet storeShort "zzz" = none ∧
    get_material storeShort "zzz" = .err 404 "Material not found" :=
  ⟨by decide,
    ((c5_get_material_contract storeShort "x").1 matShort (by decide)).1,
    by decide,
    ((c5_get_material_contract storeShort "x").1 matShort (by decide)).2 (by decide),
    by decide,
    by decide,
    (c5_get_material_contract storeShort "zzz").2 (by decide)⟩

/-- Claim C6: the invariant that every stored record's content has
non-whitespace text is preserved by every operation of the service. -/
theorem c6_store_content_invariant (configured : Bool) (gm : GenModel)
    (jl : String → Option Json) (store : Store) (op : Op) (h : MaterialsInv store) :
    MaterialsInv (applyOp configured gm jl store op) := by
  cases op with
  | upload filename extraction =>
    show MaterialsInv (upload_pdf store filename extraction).2
    cases extraction with
    | error msg =>
      by_cases h1 : pyEndswith filename ".pdf" = false
      · simp only [upload_pdf]; rw [if_pos h1]; exact h
      · simp only [upload_pdf]; rw [if_neg h1]; exact h
    | ok pages =>
      by_cases h1 : pyEndswith filename ".pdf" = false
      · simp only [upload_pdf]; rw [if_pos h1]; exact h
      · by_cases h2 : pyStrip (pagesText pages) = ""
        · simp only [upload_pdf]; rw [if_neg h1, if_pos h2]; exact h
        · simp only [upload_pdf]; rw [if_neg h1, if_neg h2]
          exact materialsInv_storePut store (deriveId filename) _ h h2
  | genNotes mid =>
    show MaterialsInv (generate_notes store configured gm mid).2
    cases hg : storeGet store mid with
    | none => simp only [generate_notes, hg]; exact h
    | some mat =>
      by_cases hc : configured = false
      · simp only [generate_notes, hg]; rw [if_pos hc]; exact h
      · cases hgm : gm (notesPrompt mat.content) with
        | text t =>
          simp only [generate_notes, hg, hgm]
          rw [if_neg hc]
          exact materialsInv_setNotes store mid t h
        | raises msg =>
          simp only [generate_notes, hg, hgm]
          rw [if_neg hc]
          exact h
  | genQuiz req =>
    show MaterialsInv (generate_quiz jl store configured gm req).2
    cases hg : storeGet store req.material_id with
    | none => simp only [generate_quiz, hg]; exact h
    | some mat =>
      by_cases hc : configured = false
      · simp only [generate_quiz, hg]; rw [if_pos hc]; exact h
      · cases hgm : gm (quizPrompt req.num_questions mat.content) with
        | raises msg =>
          simp only [generate_quiz, hg, hgm]
          rw [if_neg hc]
          exact h
        | text t =>
          cases hjl : jl (cleanQuizText t) with
          | some j =>
            simp only [generate_quiz, hg, hgm, hjl]
            rw [if_neg hc]
            exact materialsInv_setQuiz store req.material_id j h
          | none =>
            simp only [generate_quiz, hg, hgm, hjl]
            rw [if_neg hc]
            exact materialsInv_setQuiz store req.material_id _ h
  | tutorChat req =>
    show MaterialsInv (chat_with_tutor store configured gm req).2
    rw [chatStoreUnchanged]
    exact h
  | listAll => exact h
  | getOne mid => exact h

/-- Witness for claim C6: the empty store satisfies the invariant, and it
is preserved across an upload that creates a record. -/
theorem c6_witness :
    MaterialsInv ([] : Store) ∧
    MaterialsInv (applyOp true (gmText "ok") parseJson [] (Op.upload "x.pdf" (.ok ["hi"]))) ∧
    applyOp true (gmText "ok") parseJson [] (Op.upload "x.pdf" (.ok ["hi"]))
      = [("x", ⟨"x.pdf", "hi\n", none, none⟩)] :=
  ⟨by decide,
    c6_store_content_invariant true (gmText "ok") parseJson [] _ (by decide),
    by decide⟩

/-- Claim C7: generate_notes on an id absent from the store fails with 404
and leaves the store unchanged, whatever the configured flag and the model
client are: the result does not depend on either, so the client is never
invoked. -/
theorem c7_notes_unknown_id_404 (store : Store) (configured : Bool) (gm : GenModel)
    (mid : String) (h : storeGet store mid = none) :
    generate_notes store configured gm mid = (.err 404 "Material not found", store) := by
  simp only [generate_notes, h]

/-- Witness for claim C7 with an unconfigured client that would raise if
invoked. -/
theorem c7_witness :
    storeGet ([] : Store) "zzz" = none ∧
    generate_notes [] false gmBoom "zzz" = (.err 404 "Material not found", ([] : Store)) :=
  ⟨by decide, c7_notes_unknown_id_404 [] false gmBoom "zzz" (by decide)⟩

/-- Claim C8, counterexample: the code does not strip only a leading and
trailing fence; it removes every occurrence of the fence substrings. On a
fenced array whose string element contains a backtick run, the code yields
the array with element "ab" while leading/trailing stripping (the spec's
wording, embodied by specStripFences) yields element "a```b". -/
theorem c8_counterexample :
    cleanQuizText "```json\n[\"a```b\"]\n```" = "[\"ab\"]" ∧
    specStripFences "```json\n[\"a```b\"]\n```" = "[\"a```b\"]" ∧
    cleanQuizText "```json\n[\"a```b\"]\n```" ≠ specStripFences "```json\n[\"a```b\"]\n```" ∧
    parseJson "[\"ab\"]" = some (.jarr (.cons (.jstr "ab") .nil)) ∧
    parseJson "[\"a```b\"]" = some (.jarr (.cons (.jstr "a```b") .nil)) ∧
    (generate_quiz parseJson storeW true (gmText "```json\n[\"a```b\"]\n```") ⟨"m", 5⟩).1
      = .ok ⟨"success", .jarr (.cons (.jstr "ab") .nil)⟩ := by
  decide

/-- Claim C8 (amended): the post-processing strips the response, removes
every occurrence of the json-labelled fence opener and of the bare fence
when the response starts with one, strips again and then attempts strict
JSON parsing; in particular a response wrapping a trimmed, backtick-free
JSON value between a json-labelled opening fence and a closing fence is
stored and returned as the parsed value with the fences removed. -/
theorem c8_quiz_fenced_array_parsed (jl : String → Option Json) (store : Store)
    (gm : GenModel) (req : QuizRequest) (mat : Material) (body : List Char) (j : Json)
    (hmat : storeGet store req.material_id = some mat)
    (hgm : gm (quizPrompt req.num_questions mat.content)
      = ModelResult.text (String.mk ("```json\n".data ++ body ++ "\n```".data)))
    (hne : body ≠ []) (hFront : stripFront body = body) (hBack : stripBack body = body)
    (hTick : btickChar ∉ body)
    (hparse : jl (String.mk body) = some j) :
    generate_quiz jl store true gm req =
      (.ok ⟨"success", j⟩, storeSetQuiz store req.material_id j) := by
  have hclean := cleanQuizText_fenced body hne hFront hBack hTick
  simp only [generate_quiz, hmat, hgm, hclean, hparse]
  simp

/-- Witness for the amended claim C8 on a fenced one-element array. -/
theorem c8_witness :
    c8Body ≠ [] ∧ stripFront c8Body = c8Body ∧ stripBack c8Body = c8Body ∧
    btickChar ∉ c8Body ∧
    parseJson (String.mk c8Body) = some (.jarr (.cons (.jstr "q") .nil)) ∧
    String.mk ("```json\n".data ++ c8Body ++ "\n```".data) = "```json\n[\"q\"]\n```" ∧
    generate_quiz parseJson storeW true (gmText "```json\n[\"q\"]\n```") ⟨"m", 5⟩ =
      (.ok ⟨"success", .jarr (.cons (.jstr "q") .nil)⟩,
        storeSetQuiz storeW "m" (.jarr (.cons (.jstr "q") .nil))) :=
  ⟨by decide, by decide, by decide, by decide, by decide, by decide,
    c8_quiz_fenced_array_parsed parseJson storeW (gmText "```json\n[\"q\"]\n```") ⟨"m", 5⟩ matW
      c8Body (.jarr (.cons (.jstr "q") .nil)) (by decide) (by decide) (by decide) (by decide)
      (by decide) (by decide) (by decide)⟩

/-- Claim C9: a successful upload stores, under the derived id, a record
whose content is the concatenation of the pages' texts each followed by a
newline, with notes and quiz unset, and answers with the success payload. -/
theorem c9_upload_creates_record (store : Store) (filename : String) (pages : List String)
    (hEnd : pyEndswith filename ".pdf" = true)
    (hText : pyStrip (pagesText pages) ≠ "") :
    (upload_pdf store filename (.ok pages)).1 =
      .ok ⟨"success", "PDF uploaded successfully", deriveId filename, filename⟩ ∧
    storeGet (upload_pdf store filename (.ok pages)).2 (deriveId filename) =
      some ⟨filename, pagesText pages, none, none⟩ := by
  have h1 : ¬ (pyEndswith filename ".pdf" = false) := by rw [hEnd]; simp
  constructor
  · simp only [upload_pdf]
    rw [if_neg h1, if_neg hText]
  · simp only [upload_pdf]
    rw [if_neg h1, if_neg hText]
    exact storeGet_storePut store (deriveId filename) _

/-- Witness for claim C9 at the spec's example upload. -/
theorem c9_witness :
    pyEndswith "x.pdf" ".pdf" = true ∧
    pyStrip (pagesText ["Hello world"]) ≠ "" ∧
    pagesText ["Hello world"] = "Hello world\n" ∧
    deriveId "x.pdf" = "x" ∧
    ((upload_pdf [] "x.pdf" (.ok ["Hello world"])).1 =
        .ok ⟨"success", "PDF uploaded successfully", deriveId "x.pdf", "x.pdf"⟩ ∧
      storeGet (upload_pdf [] "x.pdf" (.ok ["Hello world"])).2 (deriveId "x.pdf") =
        some ⟨"x.pdf", pagesText ["Hello world"], none, none⟩) ∧
    storeGet (upload_pdf [] "x.pdf" (.ok ["Hello world"])).2 "x" =
      some ⟨"x.pdf", "Hello world\n", none, none⟩ :=
  ⟨by decide, by decide, by decide, by decide,
    c9_upload_creates_record [] "x.pdf" ["Hello world"] (by decide) (by decide),
    by decide⟩

/-- Claim C10: the chat handler never mutates the material store: for
every request, configured flag and client outcome the store after the
operation is the store before it, so every record with its content,
filename, notes and quiz is unchanged. -/
theorem c10_chat_never_mutates_store (store : Store) (configured : Bool) (gm : GenModel)
    (req : ChatRequest) : (chat_with_tutor store configured gm req).2 = store :=
  chatStoreUnchanged store configured gm req

